import Mathlib

/-!
Shallow embedding of the telegram-md-bot repository (index.js and the three
unnamed variant files) and proofs about the claims of its specification.

Conventions:
- JavaScript strings are modelled as Lean String (a wrapper over List Char);
  the JS helpers split / trim / startsWith / replace-first-occurrence are
  re-implemented below with JS semantics.
- Stateful handlers become pure functions from an explicit store state (an
  Option means collection availability: none = store unavailable).
- Fallible JS code (a thrown exception escaping the handler) is an
  Except Unit result; exceptions caught inside the handler are folded into
  the normal result, exactly as the source catch blocks do.
- Math.random based choices take an arbitrary Nat argument reduced modulo
  the relevant length, matching Math.floor(Math.random() * len).
-/

namespace MdBot

/-- JS String.prototype.split with a single-character separator, on char
lists: "".split(c) = [""], separators at the ends produce empty chunks. -/
def jsSplit (c : Char) : List Char → List (List Char)
  | [] => [[]]
  | x :: xs =>
    match jsSplit c xs with
    | [] => [[]]
    | h :: t => if x = c then [] :: h :: t else (x :: h) :: t

/-- String-level wrapper of `jsSplit`. -/
def jsSplitStr (c : Char) (s : String) : List String :=
  (jsSplit c s.data).map List.asString

/-- Boolean list-prefix test (used for JS startsWith and replace). -/
def hasPfxL : List Char → List Char → Bool
  | [], _ => true
  | _ :: _, [] => false
  | p :: ps, x :: xs => p == x && hasPfxL ps xs

/-- JS String.prototype.startsWith. -/
def jsStartsWith (pat s : String) : Bool :=
  hasPfxL pat.data s.data

/-- Remove the first occurrence of a pattern from a char list, as
JS String.prototype.replace(pat, "") does with a string pattern. -/
def removeFirstL (pat : List Char) : List Char → List Char
  | [] => []
  | x :: xs =>
    if hasPfxL pat (x :: xs) then (x :: xs).drop pat.length
    else x :: removeFirstL pat xs

/-- JS s.replace(pat, "") (first occurrence only). -/
def replaceFirstStr (pat : String) (s : String) : String :=
  ⟨removeFirstL pat.data s.data⟩

/-- JS String.prototype.trim. -/
def jsTrim (s : String) : String :=
  ⟨((s.data.dropWhile Char.isWhitespace).reverse.dropWhile Char.isWhitespace).reverse⟩

/-! ## Broadcast engine

The broadcast loop shared verbatim by part_000 (both variants, lines
245-282 and 463-497) and part_002 (lines 426-463):

    let successCount = 0; let failCount = 0;
    for (const user of users) {
      try { await ctx.telegram.sendMessage(user._id, ...); successCount++;
            await delay(100); }
      catch (error) { failCount++; }
    }
    ctx.reply(`Success: ${successCount} Failed: ${failCount}`)

The per-recipient send outcome is abstracted as a predicate
`send : Nat → Bool` (true = the platform delivered). The result records
the success count, the failure count, and the list of user ids for which
a send was attempted, in order. -/
def broadcastRun (send : Nat → Bool) : List Nat → Nat × Nat × List Nat
  | [] => (0, 0, [])
  | u :: rest =>
    let r := broadcastRun send rest
    if send u then (r.1 + 1, r.2.1, u :: r.2.2) else (r.1, r.2.1 + 1, u :: r.2.2)

/-! ## Device linking (/connect)

Two variants implement the command:
- part_002 lines 84-113: if a link record exists, reply echoes the stored
  code ("You are already linked! Your code: ..."); otherwise generate a
  fresh 6-digit code, upsert it keyed by userId, and reply with it.
- part_000 lines 201-224: same store logic, but the repeat reply is only
  "Your device is already linked!" and does not echo the stored code.

The device_links collection is modelled as an association list keyed by
user id; updateOne(filter, set, upsert) becomes `upsertLink`. The fresh
code produced by Math.floor(100000 + Math.random() * 900000).toString()
is an arbitrary String argument. -/

def lookupLink (uid : Nat) : List (Nat × String) → Option String
  | [] => none
  | (u, c) :: rest => if u = uid then some c else lookupLink uid rest

def upsertLink (uid : Nat) (code : String) : List (Nat × String) → List (Nat × String)
  | [] => [(uid, code)]
  | (u, c) :: rest =>
    if u = uid then (u, code) :: rest else (u, c) :: upsertLink uid code rest

inductive ConnectReply where
  | dbRequired
  | alreadyLinkedV2 (code : String)
  | alreadyLinkedV0
  | newCode (code : String)
  deriving DecidableEq

/-- The /connect handler of part_002 (lines 84-113). -/
def connectV2 (links : Option (List (Nat × String))) (uid : Nat) (fresh : String) :
    Option (List (Nat × String)) × ConnectReply :=
  match links with
  | none => (none, .dbRequired)
  | some l =>
    match lookupLink uid l with
    | some c => (some l, .alreadyLinkedV2 c)
    | none => (some (upsertLink uid fresh l), .newCode fresh)

/-- The /connect handler of part_000 (lines 201-224): identical store
behaviour, but the repeat reply does not carry the stored code. -/
def connectV0 (links : Option (List (Nat × String))) (uid : Nat) (fresh : String) :
    Option (List (Nat × String)) × ConnectReply :=
  match links with
  | none => (none, .dbRequired)
  | some l =>
    match lookupLink uid l with
    | some _ => (some l, .alreadyLinkedV0)
    | none => (some (upsertLink uid fresh l), .newCode fresh)

/-- The linking code embedded in the handler's reply text, if any. -/
def replyEchoedCode : ConnectReply → Option String
  | .alreadyLinkedV2 c => some c
  | .newCode c => some c
  | _ => none

/-- The code stored for a user in the (possibly unavailable) store. -/
def linkedCode (links : Option (List (Nat × String))) (uid : Nat) : Option String :=
  links.bind (lookupLink uid)

/-- Iterate the part_002 /connect handler over a sequence of fresh codes,
returning the final store state. -/
def connectSeqV2 (links : Option (List (Nat × String))) (uid : Nat) :
    List String → Option (List (Nat × String))
  | [] => links
  | f :: fs => connectSeqV2 (connectV2 links uid f).1 uid fs

/-! ## Settings and the passive auto-react handler

The settings singleton document (only the fields the claims touch). -/

structure Settings where
  autoreact : Bool
  autoreact_emojis : List String
  deriving DecidableEq

/-- The default settings document inserted by initSettings. -/
def defaultSettings : Settings :=
  { autoreact := true, autoreact_emojis := ["👍", "❤️", "🔥"] }

/-- JS String.prototype.toLowerCase (ASCII part, which is all the code uses). -/
def jsToLower (s : String) : String :=
  ⟨s.data.map Char.toLower⟩

/-- settings.autoreact_emojis[Math.floor(Math.random() * length)]: an
in-range random index, abstracted as rand % length; none models the JS
undefined produced when the emoji list is empty. -/
def pickEmoji (emojis : List String) (rand : Nat) : Option String :=
  emojis.get? (rand % emojis.length)

/-- The passive message handler of part_000 lines 100-123 and part_002
lines 225-249: command text (leading "/") is passed on untouched; for
other messages the settings document is read fresh and, when autoreact is
enabled and the message has text, one ctx.react call is issued. The result
is the list of reaction calls issued (with the emoji argument of each). -/
def autoReactV1 (store : Option Settings) (text : String) (rand : Nat) :
    List (Option String) :=
  if jsStartsWith "/" text then []
  else
    match store with
    | none => []
    | some s =>
      if s.autoreact ∧ text ≠ "" then [pickEmoji s.autoreact_emojis rand] else []

/-- The passive message handler of the second variant in part_000
(lines 608-627): identical settings read and reaction, but with no check
that the text starts with "/" - commands are not passed over. -/
def autoReactV2 (store : Option Settings) (text : String) (rand : Nat) :
    List (Option String) :=
  match store with
  | none => []
  | some s =>
    if s.autoreact ∧ text ≠ "" then [pickEmoji s.autoreact_emojis rand] else []

inductive AutoreactReply where
  | status (cur : Bool)
  | usage
  | toggled (enabled : Bool)
  deriving DecidableEq

/-- The /autoreact command of part_002 lines 336-356: with no argument it
reads the settings document and reports the current state (throwing when
the settings collection is undefined, since findOne is called on it);
with an argument other than on/off it replies with usage; otherwise it
single-field-updates settings.autoreact when the store is available. -/
def autoreactCmd (store : Option Settings) (text : String) :
    Except Unit (Option Settings × AutoreactReply) :=
  let args := jsSplitStr ' ' text
  if args.length < 2 then
    match store with
    | none => .error ()
    | some s => .ok (store, .status s.autoreact)
  else
    let state := jsToLower ((args.get? 1).getD "")
    if state == "on" || state == "off" then
      .ok ((match store with
            | none => none
            | some s => some { s with autoreact := state == "on" }),
           .toggled (state == "on"))
    else .ok (store, .usage)

/-- The settings store state after the /autoreact command ran (the
throwing branch performs no store write before throwing). -/
def autoreactStoreAfter (store : Option Settings) (text : String) : Option Settings :=
  match autoreactCmd store text with
  | .ok (st, _) => st
  | .error _ => store

/-! ## The /stats command -/

/-- The /stats handler of index.js lines 125-148 and part_002 lines
471-496, restricted to the two counts: the counters start as the sentinel
"N/A"; they are replaced only when both collections are defined and the
countDocuments calls succeed, and a thrown database error is caught (the
sentinels then remain). The handler itself never throws, so the result is
always ok. `none` models undefined collections (no URI configured or the
connection attempt failed), `some (.error ())` a failing store read. -/
def statsHandler (counts : Option (Except Unit (Nat × Nat))) :
    Except Unit (String × String) :=
  match counts with
  | none => .ok ("N/A", "N/A")
  | some (.error _) => .ok ("N/A", "N/A")
  | some (.ok (u, g)) => .ok (toString u, toString g)

/-- The /stats handler of the second variant in part_000 (lines 663-682):
countDocuments is called with no availability guard and no try/catch, so a
failing store read makes the handler throw instead of replying. -/
def statsV2pt0 (counts : Except Unit (Nat × Nat)) : Except Unit (String × String) :=
  match counts with
  | .error e => .error e
  | .ok (u, g) => .ok (toString u, toString g)

/-! ## Startup -/

inductive StartEvent where
  | exitNonzero
  | dbConnect
  | botLaunch
  deriving DecidableEq

/-- Startup of index.js (lines 6-9 and 189-217), part_001 (lines 5-8),
part_002 (lines 5-8 and 133-136) and the first variant of part_000 (lines
5-9): a missing BOT_TOKEN makes the process exit with status 1 at module
load, before the Telegraf client is created and before connectDB runs;
otherwise connectDB attempts a connection exactly when a URI is
configured, and then the bot is launched. -/
def startupGuarded (token mongoUri : Option String) : List StartEvent :=
  match token with
  | none => [.exitNonzero]
  | some _ =>
    (match mongoUri with
     | none => []
     | some _ => [.dbConnect]) ++ [.botLaunch]

/-- Startup of the second variant in part_000 (module prologue lines
339-350, startBot lines 702-719): there is no BOT_TOKEN check. With no
MONGO_URI, new MongoClient(undefined) throws at module load and the
process crashes; with a URI, connectDB attempts the connection, and
bot.launch follows only when it succeeded (a startBot failure is caught
and merely logged, with no process.exit call). -/
def startupNoCheck (_token mongoUri : Option String) (connectOk : Bool) :
    List StartEvent :=
  match mongoUri with
  | none => [.exitNonzero]
  | some _ => .dbConnect :: (if connectOk then [.botLaunch] else [])

/-! ## Admin gate and the /broadcast command -/

/-- isAdmin of index.js lines 86-89, part_000 lines 85-88 and part_002
lines 208-211: ADMINS is split on commas when present and defaults to the
empty list when absent; the caller id rendered as a string must appear in
the list. -/
def isAdmin (admins : Option String) (uid : String) : Bool :=
  (match admins with
   | some a => jsSplitStr ',' a
   | none => []).contains uid

inductive BroadcastOutcome where
  | notAdmin
  | noDb
  | usage
  | done (sent failed : Nat)
  deriving DecidableEq

/-- The /broadcast command of part_000 lines 245-282: admin gate first,
then the users-collection guard, then the message-text guard, then the
broadcast loop. Returns the outcome and the list of attempted sends. -/
def broadcastCmd (admins : Option String) (uid text : String)
    (users : Option (List Nat)) (send : Nat → Bool) : BroadcastOutcome × List Nat :=
  if isAdmin admins uid = false then (.notAdmin, [])
  else
    match users with
    | none => (.noDb, [])
    | some us =>
      let msg := jsTrim (replaceFirstStr "/broadcast" text)
      if msg = "" then (.usage, [])
      else
        let r := broadcastRun send us
        (.done r.1 r.2.1, r.2.2)

/-- isAdmin of the second variant in part_000 (lines 379-382):
process.env.ADMINS.split(",") is called without a guard, so a missing
ADMINS variable raises a TypeError. -/
def isAdminNoGuard (admins : Option String) (uid : String) : Except Unit Bool :=
  match admins with
  | none => .error ()
  | some a => .ok ((jsSplitStr ',' a).contains uid)

/-- The /broadcast command of the second variant in part_000 (lines
463-497), whose admin check can throw before any reply is sent. -/
def broadcastCmdNoGuard (admins : Option String) (uid text : String)
    (users : List Nat) (send : Nat → Bool) :
    Except Unit (BroadcastOutcome × List Nat) :=
  match isAdminNoGuard admins uid with
  | .error e => .error e
  | .ok adm =>
    if adm = false then .ok (.notAdmin, [])
    else
      let msg := jsTrim (replaceFirstStr "/broadcast" text)
      if msg = "" then .ok (.usage, [])
      else
        let r := broadcastRun send users
        .ok (.done r.1 r.2.1, r.2.2)

/-! ## The /mute command (part_000 lines 502-534) -/

/-- Decimal value of an ASCII digit character. -/
def digitVal (c : Char) : Nat := c.toNat - 48

/-- Scanner equivalent to text.match(/(\d+)(m|h|d)/): find the leftmost
maximal digit run that is immediately followed by one of m, h, d, and
return the run's decimal value with the unit character. The accumulator
carries the value of the digit run in progress. (Regex backtracking inside
a digit run can never produce a match the maximal run misses, because a
shorter run is followed by a digit, which is not a unit.) -/
def scanDuration (acc : Option Nat) : List Char → Option (Nat × Char)
  | [] => none
  | c :: rest =>
    if c.isDigit then scanDuration (some (acc.getD 0 * 10 + digitVal c)) rest
    else
      match acc with
      | some v =>
        if c = 'm' ∨ c = 'h' ∨ c = 'd' then some (v, c)
        else scanDuration none rest
      | none => scanDuration none rest

/-- The regex match of the /mute handler on the full message text. -/
def findDuration (s : String) : Option (Nat × Char) :=
  scanDuration none s.data

/-- muteTime of part_000 lines 509-518: default 60 minutes; with a match,
the parsed value converted to minutes according to its unit. -/
def muteMinutes (text : String) : Nat :=
  match findDuration text with
  | none => 60
  | some (v, u) =>
    if u = 'm' then v
    else if u = 'h' then v * 60
    else if u = 'd' then v * 60 * 24
    else 60

/-- Arguments of a ctx.telegram.restrictChatMember call. -/
structure RestrictCall where
  userId : Nat
  untilDate : Nat
  canSendMessages : Bool
  deriving DecidableEq

inductive MuteReply where
  | usage
  | muted (minutes : Nat)
  | noPerm
  deriving DecidableEq

/-- The /mute handler of part_000 lines 502-534: with no reply-to-message
context it replies with the usage error and performs no restriction call;
otherwise it computes untilDate = floor(Date.now() / 1000) + muteTime * 60
and calls restrictChatMember with can_send_messages: false (ok is whether
the platform accepted the call; a platform error is caught and answered
with a permissions error reply). -/
def muteHandler (replyTo : Option Nat) (text : String) (nowSec : Nat) (ok : Bool) :
    Option RestrictCall × MuteReply :=
  match replyTo with
  | none => (none, .usage)
  | some target =>
    let minutes := muteMinutes text
    let call : RestrictCall := ⟨target, nowSec + minutes * 60, false⟩
    if ok then (some call, .muted minutes) else (some call, .noPerm)

/-! ## Database name derivation -/

/-- The database-name computation of index.js line 48, part_001 line 35
and part_002 lines 32 and 169:
mongoUri.split("/").pop().split("?")[0] with the JS falsy default:
an empty result string selects "telegram_md_bot". -/
def dbNameL (uri : List Char) : List Char :=
  let lastSeg := (jsSplit '/' uri).getLastD []
  let name := (jsSplit '?' lastSeg).headD []
  if name = [] then "telegram_md_bot".data else name

/-- String-level wrapper of `dbNameL`. -/
def dbName (uri : String) : String :=
  ⟨dbNameL uri.data⟩

/-- Stated from the claim's words, for comparison with `dbName`: the last
"/"-separated path segment of the URI is the suffix after the final slash
(the whole URI when it has no slash), stripping the query suffix keeps the
characters before the first "?", and an empty result falls back to the
fixed default name. -/
def dbNameSpecL (uri : List Char) : List Char :=
  let lastSeg := (uri.reverse.takeWhile (fun x => x != '/')).reverse
  let seg := lastSeg.takeWhile (fun x => x != '?')
  if seg = [] then "telegram_md_bot".data else seg

end MdBot

namespace MdBot

lemma broadcastRun_attempts (send : Nat → Bool) (users : List Nat) :
    (broadcastRun send users).2.2 = users := by
  induction users with
  | nil => rfl
  | cons u rest ih =>
    simp only [broadcastRun]
    by_cases h : send u <;> simp [h, ih]

lemma filter_length_split (send : Nat → Bool) (users : List Nat) :
    (users.filter (fun u => send u)).length
      + (users.filter (fun u => !send u)).length = users.length := by
  induction users with
  | nil => rfl
  | cons u rest ih =>
    by_cases h : send u <;>
      simp only [List.filter_cons, h, Bool.not_true, Bool.not_false, if_pos, if_neg,
        Bool.false_eq_true, not_false_eq_true, List.length_cons, ite_true, ite_false] <;>
      omega

lemma broadcastRun_counts (send : Nat → Bool) (users : List Nat) :
    (broadcastRun send users).1 = (users.filter (fun u => send u)).length ∧
    (broadcastRun send users).2.1 = (users.filter (fun u => !send u)).length := by
  induction users with
  | nil => exact ⟨rfl, rfl⟩
  | cons u rest ih =>
    simp only [broadcastRun]
    by_cases h : send u <;> simp [h, ih.1, ih.2]

end MdBot

/-- C1: for a broadcast over a stored recipient list of N users, if exactly K
individual sends fail then the loop reports success = N - K and failed = K,
and every recipient in the stored order is attempted (a failed send never
prevents the attempts that follow it). -/
theorem MdBot.broadcast_counts (send : Nat → Bool) (users : List Nat) :
    (MdBot.broadcastRun send users).1
        = users.length - (users.filter (fun u => !send u)).length ∧
    (MdBot.broadcastRun send users).2.1
        = (users.filter (fun u => !send u)).length ∧
    (MdBot.broadcastRun send users).2.2 = users := by
  obtain ⟨h1, h2⟩ := MdBot.broadcastRun_counts send users
  refine ⟨?_, h2, MdBot.broadcastRun_attempts send users⟩
  rw [h1]
  have hsum := MdBot.filter_length_split send users
  omega

namespace MdBot

lemma lookup_upsert (uid : Nat) (code : String) (l : List (Nat × String)) :
    lookupLink uid (upsertLink uid code l) = some code := by
  induction l with
  | nil => simp [upsertLink, lookupLink]
  | cons p rest ih =>
    obtain ⟨u, c⟩ := p
    by_cases h : u = uid <;> simp [upsertLink, lookupLink, h, ih]

lemma connectV2_linked (m : List (Nat × String)) (uid : Nat) (f c : String)
    (h : lookupLink uid m = some c) :
    connectV2 (some m) uid f = (some m, .alreadyLinkedV2 c) := by
  simp [connectV2, h]

lemma connectV0_linked (m : List (Nat × String)) (uid : Nat) (f c : String)
    (h : lookupLink uid m = some c) :
    connectV0 (some m) uid f = (some m, .alreadyLinkedV0) := by
  simp [connectV0, h]

lemma connectSeqV2_linked (m : List (Nat × String)) (uid : Nat) (c : String)
    (h : lookupLink uid m = some c) (fs : List String) :
    connectSeqV2 (some m) uid fs = some m := by
  induction fs with
  | nil => rfl
  | cons f fs ih =>
    simp only [connectSeqV2, connectV2_linked m uid f c h]
    exact ih

/-- After any first /connect with the store available, the store holds some
code `c` for the user, and this stored state is preserved exactly by every
later invocation. -/
lemma connect_first_then_stable (l : List (Nat × String)) (uid : Nat) (f1 : String) :
    ∃ m c, (connectV2 (some l) uid f1).1 = some m ∧ lookupLink uid m = some c ∧
      (connectV0 (some l) uid f1).1 = some m := by
  cases h : lookupLink uid l with
  | some c =>
    exact ⟨l, c, by simp [connectV2_linked l uid f1 c h],
      h, by simp [connectV0_linked l uid f1 c h]⟩
  | none =>
    refine ⟨upsertLink uid f1 l, f1, ?_, lookup_upsert uid f1 l, ?_⟩ <;>
      simp [connectV2, connectV0, h]

end MdBot

/-- C2 counterexample: in the part_000 variant, a repeat /connect by user 7
whose stored code is "123456" leaves the store unchanged and does not
regenerate the code, but its reply does not return the stored code to the
user, contradicting the claim that a repeat /connect returns the
previously stored code. -/
theorem MdBot.connect_v0_repeat_reply_lacks_code :
    MdBot.connectV0 (some [(7, "123456")]) 7 "654321"
      = (some [(7, "123456")], MdBot.ConnectReply.alreadyLinkedV0) ∧
    MdBot.replyEchoedCode (MdBot.connectV0 (some [(7, "123456")]) 7 "654321").2 = none := by
  exact ⟨rfl, rfl⟩

/-- C2 (amended): for every user and every sequence of /connect invocations
with the store available, the code stored by the first invocation is never
changed, regenerated or overwritten by any later invocation (in both
variants); in the part_002 variant a repeat /connect additionally returns
the previously stored code in its reply. -/
theorem MdBot.connect_idempotent (l : List (Nat × String)) (uid : Nat)
    (f1 f2 : String) (fs : List String) :
    ∃ c, MdBot.linkedCode (MdBot.connectV2 (some l) uid f1).1 uid = some c ∧
      MdBot.connectSeqV2 (MdBot.connectV2 (some l) uid f1).1 uid fs
        = (MdBot.connectV2 (some l) uid f1).1 ∧
      MdBot.connectV2 (MdBot.connectV2 (some l) uid f1).1 uid f2
        = ((MdBot.connectV2 (some l) uid f1).1, MdBot.ConnectReply.alreadyLinkedV2 c) ∧
      (MdBot.connectV0 (MdBot.connectV0 (some l) uid f1).1 uid f2).1
        = (MdBot.connectV0 (some l) uid f1).1 := by
  obtain ⟨m, c, h2, hl, h0⟩ := MdBot.connect_first_then_stable l uid f1
  refine ⟨c, ?_, ?_, ?_, ?_⟩
  · rw [h2]; simpa [MdBot.linkedCode] using hl
  · rw [h2]; exact MdBot.connectSeqV2_linked m uid c hl fs
  · rw [h2]; exact MdBot.connectV2_linked m uid f2 c hl
  · rw [h0]; simp [MdBot.connectV0_linked m uid f2 c hl]

namespace MdBot

lemma autoreactStoreAfter_off (s : Settings) :
    autoreactStoreAfter (some s) "/autoreact off" = some { s with autoreact := false } := rfl

lemma autoreactStoreAfter_on (s : Settings) :
    autoreactStoreAfter (some s) "/autoreact on" = some { s with autoreact := true } := rfl

end MdBot

/-- C3: a plain-text (non-command) message processed right after
/autoreact off produces zero reaction calls, and right after /autoreact on
produces exactly one reaction call whose emoji is drawn from the configured
emoji set; the passive handler reads the settings document fresh, so the
toggle takes effect on the very next message. -/
theorem MdBot.autoreact_toggle_effect (s : MdBot.Settings) (text : String) (r : Nat)
    (hpfx : MdBot.jsStartsWith "/" text = false) (hne : text ≠ "")
    (hem : s.autoreact_emojis ≠ []) :
    MdBot.autoReactV1 (MdBot.autoreactStoreAfter (some s) "/autoreact off") text r = [] ∧
    ∃ e, MdBot.autoReactV1 (MdBot.autoreactStoreAfter (some s) "/autoreact on") text r
        = [some e] ∧ e ∈ s.autoreact_emojis := by
  constructor
  · rw [MdBot.autoreactStoreAfter_off]
    simp [MdBot.autoReactV1, hpfx]
  · rw [MdBot.autoreactStoreAfter_on]
    have hlen : 0 < s.autoreact_emojis.length := List.length_pos.mpr hem
    have hr : r % s.autoreact_emojis.length < s.autoreact_emojis.length :=
      Nat.mod_lt _ hlen
    refine ⟨s.autoreact_emojis.get ⟨r % s.autoreact_emojis.length, hr⟩, ?_,
      List.get_mem _ _ _⟩
    simp [MdBot.autoReactV1, hpfx, hne, MdBot.pickEmoji, List.get?_eq_get hr]

/-- C3 witness: the toggle theorem applied to the default settings, the
plain message "hello" and random draw 0. -/
theorem MdBot.autoreact_toggle_effect_witness :
    MdBot.autoReactV1
        (MdBot.autoreactStoreAfter (some MdBot.defaultSettings) "/autoreact off")
        "hello" 0 = [] ∧
    ∃ e, MdBot.autoReactV1
        (MdBot.autoreactStoreAfter (some MdBot.defaultSettings) "/autoreact on")
        "hello" 0 = [some e] ∧ e ∈ MdBot.defaultSettings.autoreact_emojis :=
  MdBot.autoreact_toggle_effect MdBot.defaultSettings "hello" 0
    (by decide) (by decide) (by decide)

/-- C7 counterexample: the second passive handler variant in part_000
(lines 608-627) performs no command-prefix check, so with the default
settings (autoreact on) it issues a reaction call for the command message
"/stats", contradicting the claim that no passive handler ever issues a
reaction call for a message that begins with "/". -/
theorem MdBot.autoreact_v2_reacts_to_command :
    MdBot.autoReactV2 (some MdBot.defaultSettings) "/stats" 0 = [some "👍"] ∧
    MdBot.jsStartsWith "/" "/stats" = true := by
  exact ⟨rfl, rfl⟩

/-- C7 (amended): in the variants whose passive handler checks the command
prefix (part_000 lines 100-123, part_001 lines 45-50, part_002 lines
225-249), a message whose text begins with "/" never produces a reaction
call; the second variant in part_000 lacks the check and reacts to command
text as well. -/
theorem MdBot.commands_bypass_autoreact (store : Option MdBot.Settings)
    (text : String) (r : Nat) (h : MdBot.jsStartsWith "/" text = true) :
    MdBot.autoReactV1 store text r = [] := by
  simp [MdBot.autoReactV1, h]

/-- C7 witness: the prefix-checking handler issues no reaction for "/stats"
even with autoreact enabled. -/
theorem MdBot.commands_bypass_autoreact_witness :
    MdBot.autoReactV1 (some MdBot.defaultSettings) "/stats" 0 = [] :=
  MdBot.commands_bypass_autoreact (some MdBot.defaultSettings) "/stats" 0 (by decide)

/-- C4 counterexample: the /stats handler of the second variant in
part_000 calls countDocuments with no guard and no try/catch, so when the
store read fails it throws instead of replying with the "N/A" sentinels,
contradicting the claim that /stats never throws and replies "N/A"
whenever the store is unavailable. -/
theorem MdBot.stats_v2_throws_when_store_fails :
    MdBot.statsV2pt0 (.error ()) = .error () ∧
    MdBot.statsV2pt0 (.error ()) ≠ .ok ("N/A", "N/A") := by
  exact ⟨rfl, fun h => Except.noConfusion h⟩

/-- C4 (amended): in index.js and part_002 (the guarded /stats variants),
whenever the store is unavailable - collections undefined because no URI
was configured or the connection failed, or a store read that throws - the
command replies with the literal sentinel "N/A" for both counts, and the
handler never throws for any store state; the unguarded /stats of the
second variant in part_000 throws when a store read fails (with the store
unavailable at startup, that variant never launches the bot at all). -/
theorem MdBot.stats_na_when_unavailable :
    MdBot.statsHandler none = .ok ("N/A", "N/A") ∧
    MdBot.statsHandler (some (.error ())) = .ok ("N/A", "N/A") ∧
    ∀ c, ∃ p, MdBot.statsHandler c = .ok p := by
  refine ⟨rfl, rfl, fun c => ?_⟩
  match c with
  | none => exact ⟨_, rfl⟩
  | some (.error e) => exact ⟨_, rfl⟩
  | some (.ok (u, g)) => exact ⟨_, rfl⟩

/-- C5 counterexample: the second variant in part_000 performs no
BOT_TOKEN check; started without a token but with a database URI, it
attempts the database connection (and then the launch) and never exits
with a non-zero status, contradicting the claim that every startup without
a token exits non-zero before any network connection. -/
theorem MdBot.startup_nocheck_connects_without_token :
    MdBot.startupNoCheck none (some "mongodb://localhost:27017/db") true
      = [MdBot.StartEvent.dbConnect, MdBot.StartEvent.botLaunch] ∧
    MdBot.StartEvent.exitNonzero ∉
      MdBot.startupNoCheck none (some "mongodb://localhost:27017/db") true := by
  refine ⟨rfl, ?_⟩
  intro h
  simp [MdBot.startupNoCheck] at h

/-- C5 (amended): in index.js, part_001, part_002 and the first variant of
part_000 - all the variants that guard BOT_TOKEN - a startup without the
token exits the process with a non-zero status and performs no database
connection and no bot launch; the second variant of part_000 lacks the
check and proceeds to the database connection. -/
theorem MdBot.startup_exits_without_token (uri : Option String) :
    MdBot.startupGuarded none uri = [MdBot.StartEvent.exitNonzero] ∧
    MdBot.StartEvent.dbConnect ∉ MdBot.startupGuarded none uri ∧
    MdBot.StartEvent.botLaunch ∉ MdBot.startupGuarded none uri := by
  refine ⟨rfl, ?_, ?_⟩ <;> · intro h; simp [MdBot.startupGuarded] at h

/-- C6 counterexample: in the second variant of part_000, isAdmin calls
ADMINS.split without a guard; with the ADMINS variable absent, a
/broadcast invocation by user "42" throws a TypeError instead of replying
with a rejection, contradicting the claim that with ADMINS absent every
/broadcast invocation is rejected without error. -/
theorem MdBot.broadcast_admins_absent_throws :
    MdBot.broadcastCmdNoGuard none "42" "/broadcast hi" [1, 2] (fun _ => true)
      = .error () := rfl

/-- C6 (amended): in the variants whose isAdmin guards ADMINS (index.js,
part_000 first variant, part_002), /broadcast performs zero sends and
replies with a rejection whenever the caller's id is not in the
comma-separated ADMINS list, and with ADMINS absent no caller is an admin,
so every invocation is rejected without error; in the second variant of
part_000 an absent ADMINS makes the admin check throw instead. -/
theorem MdBot.broadcast_admin_gate (admins : Option String) (uid text : String)
    (users : Option (List Nat)) (send : Nat → Bool)
    (h : MdBot.isAdmin admins uid = false) :
    MdBot.broadcastCmd admins uid text users send = (.notAdmin, []) ∧
    ∀ u : String, MdBot.isAdmin none u = false := by
  refine ⟨?_, fun u => rfl⟩
  simp [MdBot.broadcastCmd, h]

/-- C6 witness: the admin gate theorem applied with ADMINS absent and
caller "42": the invocation performs zero sends and is rejected. -/
theorem MdBot.broadcast_admin_gate_witness :
    MdBot.broadcastCmd none "42" "/broadcast hi" (some [1, 2]) (fun _ => true)
      = (.notAdmin, []) ∧ ∀ u : String, MdBot.isAdmin none u = false :=
  MdBot.broadcast_admin_gate none "42" "/broadcast hi" (some [1, 2]) (fun _ => true)
    (by decide)

/-- C8: a /mute invocation with no reply-to-message context replies with
the usage error and issues no restrictChatMember call, for every message
text, clock value and platform outcome. -/
theorem MdBot.mute_no_reply_no_restrict (text : String) (nowSec : Nat) (ok : Bool) :
    MdBot.muteHandler none text nowSec ok = (none, MdBot.MuteReply.usage) := rfl

/-- C9: a /mute invocation with a reply-to-message whose text has no
duration match is restricted for exactly 60 minutes (untilDate = now +
3600 seconds); with a match, the duration is v minutes for unit m, v * 60
for h and v * 1440 for d. -/
theorem MdBot.mute_duration (text : String) (nowSec : Nat) (uid : Nat) (ok : Bool) :
    (MdBot.findDuration text = none →
      MdBot.muteMinutes text = 60 ∧
      (MdBot.muteHandler (some uid) text nowSec ok).1
        = some ⟨uid, nowSec + 3600, false⟩) ∧
    (∀ v, MdBot.findDuration text = some (v, 'm') → MdBot.muteMinutes text = v) ∧
    (∀ v, MdBot.findDuration text = some (v, 'h') → MdBot.muteMinutes text = v * 60) ∧
    (∀ v, MdBot.findDuration text = some (v, 'd') → MdBot.muteMinutes text = v * 1440) := by
  refine ⟨fun h => ?_, fun v h => ?_, fun v h => ?_, fun v h => ?_⟩
  · have hm : MdBot.muteMinutes text = 60 := by simp [MdBot.muteMinutes, h]
    refine ⟨hm, ?_⟩
    cases ok <;> simp [MdBot.muteHandler, hm]
  · simp [MdBot.muteMinutes, h]
  · simp [MdBot.muteMinutes, h]
  · have : MdBot.muteMinutes text = v * 60 * 24 := by simp [MdBot.muteMinutes, h]
    omega

/-- C9 witness: the duration theorem applied to concrete texts: "/mute"
has no duration match and yields 60 minutes and untilDate 100 + 3600;
"/mute 30m", "/mute 2h" and "/mute 1d" yield 30, 120 and 1440 minutes. -/
theorem MdBot.mute_duration_witness :
    MdBot.muteMinutes "/mute" = 60 ∧
    (MdBot.muteHandler (some 5) "/mute" 100 true).1 = some ⟨5, 3700, false⟩ ∧
    MdBot.muteMinutes "/mute 30m" = 30 ∧
    MdBot.muteMinutes "/mute 2h" = 120 ∧
    MdBot.muteMinutes "/mute 1d" = 1440 :=
  ⟨((MdBot.mute_duration "/mute" 100 5 true).1 (by rfl)).1,
   ((MdBot.mute_duration "/mute" 100 5 true).1 (by rfl)).2,
   (MdBot.mute_duration "/mute 30m" 0 0 true).2.1 30 (by rfl),
   (MdBot.mute_duration "/mute 2h" 0 0 true).2.2.1 2 (by rfl),
   (MdBot.mute_duration "/mute 1d" 0 0 true).2.2.2 1 (by rfl)⟩

namespace MdBot

lemma jsSplit_ne_nil (c : Char) (l : List Char) : jsSplit c l ≠ [] := by
  cases l with
  | nil => simp [jsSplit]
  | cons x xs =>
    simp only [jsSplit]
    cases h : jsSplit c xs with
    | nil => simp
    | cons h t => by_cases hx : x = c <;> simp [hx]

lemma takeWhile_concat_neg {α : Type} (p : α → Bool) (a : α) (l : List α)
    (h : p a = false) : (l ++ [a]).takeWhile p = l.takeWhile p := by
  induction l with
  | nil => simp [List.takeWhile_cons, h]
  | cons x xs ih =>
    by_cases hx : p x = true <;> simp [List.takeWhile_cons, hx, ih]

lemma takeWhile_concat_pos {α : Type} (p : α → Bool) (a : α) (l : List α)
    (h : p a = true) :
    (l ++ [a]).takeWhile p = if l.all p then l ++ [a] else l.takeWhile p := by
  induction l with
  | nil => simp [List.takeWhile_cons, h]
  | cons x xs ih =>
    by_cases hx : p x = true
    · by_cases ha : xs.all p = true <;>
        simp [List.takeWhile_cons, hx, ih, List.all_cons, ha]
    · simp [List.takeWhile_cons, hx, List.all_cons,
        Bool.eq_false_iff.mpr hx]

lemma jsSplit_not_mem (c : Char) (l : List Char) (h : c ∉ l) : jsSplit c l = [l] := by
  induction l with
  | nil => simp [jsSplit]
  | cons x xs ih =>
    have hx : ¬ (x = c) := fun e => h (by simp [e])
    have hxs : c ∉ xs := fun e => h (List.mem_cons_of_mem _ e)
    simp [jsSplit, ih hxs, hx]

lemma two_le_jsSplit_length (c : Char) (l : List Char) (h : c ∈ l) :
    2 ≤ (jsSplit c l).length := by
  induction l with
  | nil => simp at h
  | cons x xs ih =>
    simp only [jsSplit]
    cases hs : jsSplit c xs with
    | nil => exact absurd hs (jsSplit_ne_nil c xs)
    | cons h0 t =>
      by_cases hx : x = c
      · simp [hx]
      · have hm : c ∈ xs := by
          rcases List.mem_cons.mp h with h1 | h1
          · exact absurd h1.symm hx
          · exact h1
        have := ih hm
        rw [hs] at this
        simp only [List.length_cons] at this ⊢
        simpa [hx] using this

lemma getLastD_default_irrel {α : Type} (a : α) (l : List α) (d1 d2 : α) :
    (a :: l).getLastD d1 = (a :: l).getLastD d2 := by
  cases hz : (a :: l).getLast? with
  | none => simp at hz
  | some z => simp [List.getLastD_eq_getLast?, hz]

lemma jsSplit_headD (c : Char) (l : List Char) :
    (jsSplit c l).headD [] = l.takeWhile (fun x => x != c) := by
  induction l with
  | nil => simp [jsSplit]
  | cons x xs ih =>
    simp only [jsSplit]
    cases hs : jsSplit c xs with
    | nil => exact absurd hs (jsSplit_ne_nil c xs)
    | cons h0 t =>
      rw [hs] at ih
      by_cases hx : x = c
      · subst hx
        simp [List.takeWhile_cons]
      · simp [hx, List.takeWhile_cons, bne_iff_ne, ← ih]

lemma jsSplit_getLastD (c : Char) (l : List Char) :
    (jsSplit c l).getLastD [] = (l.reverse.takeWhile (fun x => x != c)).reverse := by
  induction l with
  | nil => simp [jsSplit]
  | cons x xs ih =>
    cases hs : jsSplit c xs with
    | nil => exact absurd hs (jsSplit_ne_nil c xs)
    | cons h0 t =>
      rw [hs] at ih
      by_cases hx : x = c
      · subst hx
        have lhs1 : jsSplit x (x :: xs) = [] :: h0 :: t := by
          simp [jsSplit, hs]
        have e1 : (([] : List Char) :: h0 :: t).getLastD []
            = (h0 :: t).getLastD [] := List.getLastD_cons ..
        rw [lhs1, e1, ih]
        simp only [List.reverse_cons]
        rw [takeWhile_concat_neg _ _ _ (by simp)]
      · have lhs1 : jsSplit c (x :: xs) = (x :: h0) :: t := by
          simp [jsSplit, hs, hx]
        rw [lhs1]
        by_cases hm : c ∈ xs
        · have h2 := two_le_jsSplit_length c xs hm
          rw [hs] at h2
          cases t with
          | nil => simp at h2
          | cons t1 t2 =>
            have e1 : ((x :: h0) :: t1 :: t2).getLastD ([] : List Char)
                = (t1 :: t2).getLastD (x :: h0) := List.getLastD_cons ..
            have e2 : (h0 :: t1 :: t2).getLastD ([] : List Char)
                = (t1 :: t2).getLastD h0 := List.getLastD_cons ..
            have e3 := getLastD_default_irrel t1 t2 (x :: h0) h0
            rw [e1, e3, ← e2, ih]
            have hall : xs.reverse.all (fun y => y != c) = false := by
              rw [Bool.eq_false_iff]
              intro hall
              have := List.all_eq_true.mp hall c (List.mem_reverse.mpr hm)
              simp at this
            simp only [List.reverse_cons]
            rw [takeWhile_concat_pos _ _ _ (by simpa [bne_iff_ne] using hx), hall]
            simp
        · have hxs := jsSplit_not_mem c xs hm
          rw [hs] at hxs
          have e1 : h0 = xs := by injection hxs
          have e2 : t = [] := by injection hxs
          have hall : xs.reverse.all (fun y => y != c) = true := by
            rw [List.all_eq_true]
            intro y hy
            have : y ≠ c := fun e => hm (by rw [← e]; exact List.mem_reverse.mp hy)
            simpa [bne_iff_ne] using this
          rw [e2, e1]
          have e4 : ([x :: xs]).getLastD ([] : List Char) = x :: xs := rfl
          rw [e4]
          simp only [List.reverse_cons]
          rw [takeWhile_concat_pos _ _ _ (by simpa [bne_iff_ne] using hx), hall]
          simp

end MdBot

/-- C10: for every connection URI, the database name the code derives is
the last "/"-separated path segment of the URI (its suffix after the final
slash) with any "?"-query suffix stripped; when that segment strips to the
empty string the fixed default "telegram_md_bot" is used instead. -/
theorem MdBot.dbName_matches_spec (uri : String) :
    MdBot.dbName uri = ⟨MdBot.dbNameSpecL uri.data⟩ := by
  have h : MdBot.dbNameL uri.data = MdBot.dbNameSpecL uri.data := by
    simp only [MdBot.dbNameL, MdBot.dbNameSpecL, MdBot.jsSplit_getLastD,
      MdBot.jsSplit_headD]
  simp only [MdBot.dbName, h]
